import Mathlib

/-!
Shallow embedding of the AnonHere chat relay's in-process coordinator
(src/app.py) and of its Redis-backed variant (src/api/index.py).

Time is modelled in integer seconds: `time.time()` values and SQLite
`DATETIME` values both become `Int`.  Python dictionaries whose keys the
code enumerates become association lists; dictionaries the code only
indexes become total functions where a missing key is the empty value.
-/

namespace AnonHere

/-- One sliding-log rate-limit check on the timestamp list of a single
(identity, action) pair, mirroring the body of `check_rate_limit`
(src/app.py lines 49-70): keep timestamps with `now - t < window`, reject
when `len(timestamps) >= limit` (storing the filtered list), otherwise
append `now` and accept. -/
def rlCall (ts : List Int) (now : Int) (limit : Nat) (window : Int) :
    Bool × List Int :=
  let ts2 := ts.filter (fun t => decide (now - t < window))
  if limit ≤ ts2.length then (false, ts2) else (true, ts2 ++ [now])

/-- The full `RATE_LIMITS` table, `{ident: {action: [timestamps]}}`,
modelled as a function where an absent key holds `[]`. -/
abbrev RateTable := String → String → List Int

/-- `check_rate_limit(ident, action, limit, window)` acting on the whole
`RATE_LIMITS` table (src/app.py lines 49-70). -/
def checkRateLimit (rl : RateTable) (ident action : String) (limit : Nat)
    (window : Int) (now : Int) : Bool × RateTable :=
  let r := rlCall (rl ident action) now limit window
  (r.1, fun i a => if i = ident ∧ a = action then r.2 else rl i a)

/-- Sequential calls to the limiter on one (identity, action) list, used to
state the L-calls-then-one-more scenarios; returns the list of verdicts and
the final timestamp list. -/
def runCalls (ts0 : List Int) (calls : List Int) (limit : Nat)
    (window : Int) : List Bool × List Int :=
  match calls with
  | [] => ([], ts0)
  | c :: cs =>
    let r := rlCall ts0 c limit window
    let rest := runCalls r.2 cs limit window
    (r.1 :: rest.1, rest.2)

/-- Python-dict assignment `d[k] = v` on an association list: overwrite in
place when the key exists, append otherwise. -/
def setEntry (l : List (String × Int)) (k : String) (v : Int) :
    List (String × Int) :=
  if l.any (fun p => decide (p.1 = k)) then
    l.map (fun p => if p.1 = k then (k, v) else p)
  else l ++ [(k, v)]

/-- The `LAST_SEEN` presence table, room id (`"global"` or the decimal
code) to the room's username-to-last-seen association list. -/
abbrev PresenceTable := String → List (String × Int)

/-- `update_presence(room_id, username)` (src/app.py lines 72-77):
`LAST_SEEN[room_id][username] = now`. -/
def updatePresence (ls : PresenceTable) (rid : String) (u : String)
    (now : Int) : PresenceTable :=
  fun r => if r = rid then setEntry (ls rid) u now else ls r

/-- `get_active_count(room_id)` (src/app.py lines 79-91): count entries
with `now - t < 10` and, as a side effect, keep only those entries for the
room. -/
def getActiveCount (ls : PresenceTable) (rid : String) (now : Int) :
    Nat × PresenceTable :=
  let active := (ls rid).filter (fun p => decide (now - p.2 < 10))
  (active.length, fun r => if r = rid then active else ls r)

/-- The `ACTIVE_SESSIONS` registry, username to session id, absent = none. -/
abbrev SessionTable := String → Option String

/-- `is_username_active(username)` (src/app.py lines 28-35): true when the
username maps to a session id different from the client's own
`session.get('session_id')` (`None` compares unequal to any string). -/
def isUsernameActive (acts : SessionTable) (clientSid : Option String)
    (u : String) : Bool :=
  match acts u with
  | none => false
  | some sid => decide (some sid ≠ clientSid)

/-- `unregister_session(username)` (src/app.py lines 44-47). -/
def unregisterSession (acts : SessionTable) (u : String) : SessionTable :=
  fun v => if v = u then none else acts v

/-- Result of the `/login` handler: empty-name redirect, identity-in-use
conflict (flash "IDENTITY ALREADY ACTIVE"), or success. -/
inductive LoginResult
  | emptyRedirect
  | conflict
  | ok
deriving DecidableEq

/-- The `/login` handler (src/app.py lines 513-528).  `uname` is
`request.form.get('username')`; `clientSid` the client's current
`session.get('session_id')`; `freshId` stands for the random id
`register_session` would generate.  Returns the result, the updated
registry and the client's new `session_id` cookie value. -/
def login (acts : SessionTable) (clientSid : Option String)
    (uname : Option String) (freshId : String) :
    LoginResult × SessionTable × Option String :=
  match uname with
  | none => (.emptyRedirect, acts, clientSid)
  | some u =>
    if u = "" then (.emptyRedirect, acts, clientSid)
    else if isUsernameActive acts clientSid u then (.conflict, acts, clientSid)
    else (.ok, fun v => if v = u then some freshId else acts v, some freshId)

/-- A row of the `messages` table. -/
structure Msg where
  id : Nat
  username : String
  content : String
  roomCode : Option Nat
  timestamp : Int
deriving DecidableEq

/-- A row of the `rooms` table. -/
structure Room where
  code : Nat
  name : String
  createdAt : Int
deriving DecidableEq

/-- `DELETE FROM messages WHERE timestamp < now - 1h` (src/app.py
line 154), as the list of surviving rows. -/
def sweepMessages (msgs : List Msg) (now : Int) : List Msg :=
  msgs.filter (fun m => !decide (m.timestamp < now - 3600))

/-- The UTC day number (days since the epoch, floor division) of an
epoch-seconds timestamp — the part of it that the zero-padded
`"YYYY-MM-DD"` prefix of its SQLite text form spells out. -/
def utcDay (t : Int) : Int := Int.fdiv t 86400

/-- `DELETE FROM rooms WHERE created_at < ?` (src/app.py line 155) as it
actually executes.  Rooms are inserted without a timestamp (line 557), so
`rooms.created_at` holds SQLite's `CURRENT_TIMESTAMP` text
`"YYYY-MM-DD HH:MM:SS"`, while the bound cutoff arrives through the
registered `datetime` adapter (lines 99-100) as isoformat text
`"YYYY-MM-DDTHH:MM:SS.ffffff+00:00"`.  Neither text converts to a number,
so SQLite compares the two strings byte-wise: their zero-padded
`"YYYY-MM-DD"` prefixes order exactly as the dates, and on equal dates the
separator decides with `' ' < 'T'`, putting the stored text below the
cutoff's.  A row is therefore deleted exactly when its UTC day is at most
the cutoff's UTC day — unlike messages, whose timestamps go through the
same adapter as the cutoff and hence compare chronologically. -/
def sweepRooms (rooms : List Room) (now : Int) : List Room :=
  rooms.filter (fun r => !decide (utcDay r.createdAt ≤ utcDay (now - 3600)))

/-- Timestamp order on messages, the `ORDER BY timestamp ASC` relation. -/
def tsLe (a b : Msg) : Prop := a.timestamp ≤ b.timestamp

instance : DecidableRel tsLe := fun a b => Int.decLe a.timestamp b.timestamp

instance : IsTotal Msg tsLe := ⟨fun a b => Int.le_total a.timestamp b.timestamp⟩

instance : IsTrans Msg tsLe := ⟨fun _ _ _ h1 h2 => le_trans h1 h2⟩

/-- `SELECT * FROM messages WHERE room_code = ? / IS NULL ORDER BY
timestamp ASC` (src/app.py lines 673-676): filter to the room, sort by
timestamp ascending. -/
def listByRoom (msgs : List Msg) (room : Option Nat) : List Msg :=
  List.insertionSort tsLe (msgs.filter (fun m => decide (m.roomCode = room)))

/-- The coordinator's whole mutable state: the SQLite tables plus the three
in-memory maps. -/
structure ServerState where
  messages : List Msg
  nextId : Nat
  rooms : List Room
  rateLimits : RateTable
  lastSeen : PresenceTable
  activeSessions : SessionTable

/-- `cleanup_old_messages()` (src/app.py lines 146-171): expire messages
older than one hour, expire rooms per the text comparison embedded in
`sweepRooms`, and trim rate-limit timestamps older than 300 s (deleting a
key and leaving an empty list are extensionally the same in the functional
table model). -/
def sweepState (st : ServerState) (now : Int) : ServerState :=
  { st with
    messages := sweepMessages st.messages now
    rooms := sweepRooms st.rooms now
    rateLimits := fun i a => (st.rateLimits i a).filter
      (fun t => decide (now - t < 300)) }

/-- HTTP method of an `/api/messages` request. -/
inductive Method
  | get
  | post
  | delete
deriving DecidableEq

/-- An `/api/messages` request: the Flask session cookie fields, the
client address and the JSON body fields the handler reads. -/
structure Request where
  method : Method
  username : Option String
  sessionId : Option String
  roomCode : Option Nat
  ip : String
  content : Option String
  messageId : Option Nat
deriving DecidableEq

/-- The possible `/api/messages` responses. -/
inductive Resp
  | unauthorized                               -- 401
  | rateLimited                                -- 429
  | badRequest                                 -- 400, "Message ID required"
  | notFound                                   -- 404
  | forbidden                                  -- 403
  | deleted                                    -- 200, {"status": "deleted"}
  | sent                                       -- 200, {"status": "sent"}
  | messages (msgs : List Msg) (activeCount : Nat)  -- 200, GET payload
deriving DecidableEq

/-- The session-validation test of src/app.py line 614: a falsy (absent or
empty) username or session id, or a registry mismatch, is unauthorized. -/
def authOk (st : ServerState) (req : Request) : Bool :=
  match req.username, req.sessionId with
  | some u, some sid =>
    decide (u ≠ "") && decide (sid ≠ "")
      && decide (st.activeSessions u = some sid)
  | _, _ => false

/-- The requester's username as the handler uses it (auth guarantees it is
present and nonempty). -/
def usernameOf (req : Request) : String := req.username.getD ""

/-- `str(room_code) if room_code else 'global'` (src/app.py line 620); a
`0` code is falsy in Python. -/
def roomIdOf : Option Nat → String
  | none => "global"
  | some c => if c = 0 then "global" else toString c

/-- Truthiness of `session.get('room_code')`, as used by the GET branch. -/
def roomTruthy : Option Nat → Bool
  | none => false
  | some c => decide (c ≠ 0)

/-- The GET tail of `api_messages` (src/app.py lines 671-687): list the
caller's room (global when the code is falsy), compute the active count
(evicting stale presence entries). -/
def handleGet (st : ServerState) (req : Request) (now : Int) :
    Resp × ServerState :=
  let msgs := if roomTruthy req.roomCode then listByRoom st.messages req.roomCode
              else listByRoom st.messages none
  let rid := roomIdOf req.roomCode
  let r := getActiveCount st.lastSeen rid now
  (.messages msgs r.1, { st with lastSeen := r.2 })

/-- The POST branch of `api_messages` (src/app.py lines 653-669): rate
limit 5 per 10 s keyed on the client address, then insert when `content`
is truthy; a falsy `content` falls through to the GET tail. -/
def handlePost (st : ServerState) (req : Request) (now : Int) :
    Resp × ServerState :=
  let r := checkRateLimit st.rateLimits req.ip "send_msg" 5 10 now
  let st1 := { st with rateLimits := r.2 }
  if !r.1 then (.rateLimited, st1)
  else
    match req.content with
    | some c =>
      if c ≠ "" then
        let msg : Msg :=
          ⟨st1.nextId, usernameOf req, c, req.roomCode, now⟩
        (.sent, { st1 with messages := st1.messages ++ [msg],
                           nextId := st1.nextId + 1 })
      else handleGet st1 req now
    | none => handleGet st1 req now

/-- The DELETE branch of `api_messages` (src/app.py lines 623-651): rate
limit 10 per 60 s keyed on the client address, 400 on a falsy message id
(absent or `0`), 404 when no row has the id, 403 when the row's author is
not the requester, else delete the row. -/
def handleDelete (st : ServerState) (req : Request) (now : Int) :
    Resp × ServerState :=
  let r := checkRateLimit st.rateLimits req.ip "delete_msg" 10 60 now
  let st1 := { st with rateLimits := r.2 }
  if !r.1 then (.rateLimited, st1)
  else
    match req.messageId with
    | none => (.badRequest, st1)
    | some mid =>
      if mid = 0 then (.badRequest, st1)
      else
        match st1.messages.find? (fun m => decide (m.id = mid)) with
        | none => (.notFound, st1)
        | some m =>
          if m.username ≠ usernameOf req then (.forbidden, st1)
          else
            let kept := st1.messages.filter (fun x => decide (x.id ≠ mid))
            (.deleted, { st1 with messages := kept })

/-- The `/api/messages` handler (src/app.py lines 605-687): sweep, validate
the session, record presence, then dispatch on the method. -/
def apiMessages (st : ServerState) (req : Request) (now : Int) :
    Resp × ServerState :=
  let st1 := sweepState st now
  if !authOk st1 req then (.unauthorized, st1)
  else
    let ls2 := updatePresence st1.lastSeen (roomIdOf req.roomCode) (usernameOf req) now
    let st2 := { st1 with lastSeen := ls2 }
    match req.method with
    | .delete => handleDelete st2 req now
    | .post => handlePost st2 req now
    | .get => handleGet st2 req now

/-- The `create_room` retry loop (src/app.py lines 545-566): draw candidate
codes (modelling the stream of `random.randint(100000, 999999)` draws) until
one is absent from the `rooms` table, then insert; `none` when the supplied
candidate stream is exhausted. -/
def createRoom (rooms : List Room) (cands : List Nat) (name : String)
    (now : Int) : Option (Nat × List Room) :=
  match cands with
  | [] => none
  | c :: cs =>
    if rooms.any (fun r => decide (r.code = c)) then createRoom rooms cs name now
    else some (c, rooms ++ [⟨c, name, now⟩])

/-- A message of the Redis-backed variant (src/api/index.py); Python string
slicing is modelled on `List Char`. -/
structure ChatMsg where
  text : List Char
  user : List Char
  timestamp : Int
deriving DecidableEq

/-- The JSON body of a POST to `/api/chat`: the optional `text` and `user`
fields (`none` = key absent). -/
structure ChatPostData where
  text : Option (List Char)
  user : Option (List Char)

/-- Responses of the `/api/chat` handler. -/
inductive ChatResp
  | noText                          -- 400, {"error": "No text"}
  | sent                            -- 200, {"status": "sent"}
  | messages (msgs : List ChatMsg)  -- 200, GET payload
deriving DecidableEq

/-- The POST branch of `/api/chat` (src/api/index.py lines 21-38): 400
when `text` is absent, else truncate `text` to 280 and `user` (default
`"Anon"`) to 6, `LPUSH` the message and `LTRIM` the list to indices
0..49.  The store list is newest-first, as Redis `LPUSH` leaves it. -/
def chatPost (store : List ChatMsg) (d : ChatPostData) (now : Int) :
    ChatResp × List ChatMsg :=
  match d.text with
  | none => (.noText, store)
  | some t =>
    let msg : ChatMsg := ⟨t.take 280, (d.user.getD "Anon".toList).take 6, now⟩
    (.sent, (msg :: store).take 50)

/-- The GET branch of `/api/chat` (src/api/index.py lines 40-44):
`LRANGE chat_messages 0 49`. -/
def chatGet (store : List ChatMsg) : ChatResp :=
  .messages (store.take 50)

/-- A concrete coordinator state for the rate-limited-request scenario:
"alice" holds session "sid1", the client address already has five send
timestamps at time 100 and presence is empty. -/
def exampleState : ServerState :=
  { messages := []
    nextId := 1
    rooms := []
    rateLimits := fun i a =>
      if i = "1.2.3.4" ∧ a = "send_msg" then [100, 100, 100, 100, 100] else []
    lastSeen := fun _ => []
    activeSessions := fun u => if u = "alice" then some "sid1" else none }

/-- A POST of "hello" by "alice" from that client address. -/
def examplePost : Request :=
  { method := .post, username := some "alice", sessionId := some "sid1",
    roomCode := none, ip := "1.2.3.4", content := some "hello",
    messageId := none }

/-- A concrete state with one fresh message (id 7) authored by "alice" and
live sessions for "alice" and "bob". -/
def exampleDeleteState : ServerState :=
  { messages := [⟨7, "alice", "hi", none, 100⟩]
    nextId := 8
    rooms := []
    rateLimits := fun _ _ => []
    lastSeen := fun _ => []
    activeSessions := fun u =>
      if u = "alice" then some "sid1"
      else if u = "bob" then some "sid2" else none }

/-- A DELETE of message `mid` by user `u` with session id `sid`. -/
def exampleDelete (u sid : String) (mid : Nat) : Request :=
  { method := .delete, username := some u, sessionId := some sid,
    roomCode := none, ip := "5.6.7.8", content := none,
    messageId := some mid }

/-- A POST by "alice" whose JSON body carries an empty `content`. -/
def exampleEmptyPost : Request :=
  { method := .post, username := some "alice", sessionId := some "sid1",
    roomCode := none, ip := "9.9.9.9", content := some "",
    messageId := none }

/-! ### Helper lemmas about the handler pipeline -/

@[simp] theorem sweepState_messages (st : ServerState) (now : Int) :
    (sweepState st now).messages = sweepMessages st.messages now := rfl

@[simp] theorem sweepState_rooms (st : ServerState) (now : Int) :
    (sweepState st now).rooms = sweepRooms st.rooms now := rfl

@[simp] theorem sweepState_lastSeen (st : ServerState) (now : Int) :
    (sweepState st now).lastSeen = st.lastSeen := rfl

@[simp] theorem sweepState_activeSessions (st : ServerState) (now : Int) :
    (sweepState st now).activeSessions = st.activeSessions := rfl

@[simp] theorem sweepState_nextId (st : ServerState) (now : Int) :
    (sweepState st now).nextId = st.nextId := rfl

theorem handleGet_fst (st : ServerState) (req : Request) (now : Int) :
    (handleGet st req now).1
      = .messages
          (if roomTruthy req.roomCode then listByRoom st.messages req.roomCode
           else listByRoom st.messages none)
          (getActiveCount st.lastSeen (roomIdOf req.roomCode) now).1 := rfl

theorem handleGet_snd (st : ServerState) (req : Request) (now : Int) :
    (handleGet st req now).2
      = { st with lastSeen :=
            (getActiveCount st.lastSeen (roomIdOf req.roomCode) now).2 } := rfl

theorem apiMessages_unauthorized (st : ServerState) (req : Request) (now : Int)
    (h : authOk (sweepState st now) req = false) :
    apiMessages st req now = (.unauthorized, sweepState st now) := by
  simp [apiMessages, h]

theorem apiMessages_authed (st : ServerState) (req : Request) (now : Int)
    (h : authOk (sweepState st now) req = true) :
    apiMessages st req now =
      (match req.method with
       | .delete => handleDelete { sweepState st now with lastSeen := updatePresence st.lastSeen (roomIdOf req.roomCode) (usernameOf req) now } req now
       | .post => handlePost { sweepState st now with lastSeen := updatePresence st.lastSeen (roomIdOf req.roomCode) (usernameOf req) now } req now
       | .get => handleGet { sweepState st now with lastSeen := updatePresence st.lastSeen (roomIdOf req.roomCode) (usernameOf req) now } req now) := by
  simp [apiMessages, h]

theorem handlePost_rateLimited_eq (st : ServerState) (req : Request) (now : Int)
    (h : (handlePost st req now).1 = .rateLimited) :
    handlePost st req now
      = (.rateLimited,
         { st with rateLimits :=
             (checkRateLimit st.rateLimits req.ip "send_msg" 5 10 now).2 }) := by
  by_cases hok : (checkRateLimit st.rateLimits req.ip "send_msg" 5 10 now).1 = true
  · exfalso
    simp only [handlePost, hok, Bool.not_true, Bool.false_eq_true, if_false] at h
    rcases hc : req.content with _ | c
    · rw [hc] at h
      dsimp only at h
      rw [handleGet_fst] at h
      simp at h
    · rw [hc] at h
      dsimp only at h
      by_cases hce : c = ""
      · rw [if_neg (show ¬(c ≠ "") from fun hne => hne hce)] at h
        rw [handleGet_fst] at h
        simp at h
      · rw [if_pos hce] at h
        simp at h
  · rw [Bool.not_eq_true] at hok
    simp [handlePost, hok]

theorem handleDelete_rateLimited_eq (st : ServerState) (req : Request) (now : Int)
    (h : (handleDelete st req now).1 = .rateLimited) :
    handleDelete st req now
      = (.rateLimited,
         { st with rateLimits :=
             (checkRateLimit st.rateLimits req.ip "delete_msg" 10 60 now).2 }) := by
  by_cases hok : (checkRateLimit st.rateLimits req.ip "delete_msg" 10 60 now).1 = true
  · exfalso
    simp only [handleDelete, hok, Bool.not_true, Bool.false_eq_true, if_false] at h
    rcases hmid : req.messageId with _ | mid
    · rw [hmid] at h
      dsimp only at h
      simp at h
    · rw [hmid] at h
      dsimp only at h
      by_cases hz : mid = 0
      · rw [if_pos hz] at h
        simp at h
      · rw [if_neg hz] at h
        rcases hfind : List.find? (fun m => decide (m.id = mid)) st.messages
            with _ | m
        · rw [hfind] at h
          simp at h
        · rw [hfind] at h
          dsimp only at h
          by_cases hu : m.username ≠ usernameOf req
          · rw [if_pos hu] at h
            simp at h
          · rw [if_neg hu] at h
            simp at h
  · rw [Bool.not_eq_true] at hok
    simp [handleDelete, hok]

/-! ### Helper lemmas about the rate limiter -/

theorem rlCall_eq (ts : List Int) (now : Int) (limit : Nat) (window : Int) :
    rlCall ts now limit window =
      if limit ≤ (ts.filter (fun t => decide (now - t < window))).length then
        (false, ts.filter (fun t => decide (now - t < window)))
      else (true, ts.filter (fun t => decide (now - t < window)) ++ [now]) := rfl

theorem runCalls_nil (ts0 : List Int) (limit : Nat) (window : Int) :
    runCalls ts0 [] limit window = ([], ts0) := rfl

theorem runCalls_cons (ts0 : List Int) (c : Int) (cs : List Int) (limit : Nat)
    (window : Int) :
    runCalls ts0 (c :: cs) limit window =
      ((rlCall ts0 c limit window).1
          :: (runCalls (rlCall ts0 c limit window).2 cs limit window).1,
        (runCalls (rlCall ts0 c limit window).2 cs limit window).2) := rfl

theorem rlCall_snd_length_le (ts : List Int) (now : Int) (limit : Nat)
    (window : Int) : (rlCall ts now limit window).2.length ≤ ts.length + 1 := by
  rw [rlCall_eq]
  have h := List.length_filter_le (fun t => decide (now - t < window)) ts
  split
  · simpa using Nat.le_succ_of_le h
  · simpa using Nat.succ_le_succ h

theorem runCalls_snd_length_le (limit : Nat) (window : Int) :
    ∀ (calls ts0 : List Int),
      ((runCalls ts0 calls limit window).2).length ≤ ts0.length + calls.length := by
  intro calls
  induction calls with
  | nil => intro ts0; simp [runCalls_nil]
  | cons c cs ih =>
    intro ts0
    rw [runCalls_cons]
    calc ((runCalls (rlCall ts0 c limit window).2 cs limit window).2).length
        ≤ (rlCall ts0 c limit window).2.length + cs.length := ih _
      _ ≤ ts0.length + 1 + cs.length :=
          Nat.add_le_add_right (rlCall_snd_length_le ts0 c limit window) _
      _ = ts0.length + (c :: cs).length := by simp [List.length_cons]; omega

theorem runCalls_all_true (limit : Nat) (window : Int) :
    ∀ (calls ts0 : List Int), ts0.length + calls.length ≤ limit →
      ∀ b ∈ (runCalls ts0 calls limit window).1, b = true := by
  intro calls
  induction calls with
  | nil => intro ts0 _ b hb; simp [runCalls_nil] at hb
  | cons c cs ih =>
    intro ts0 hlen b hb
    have hfle := List.length_filter_le (fun t => decide (c - t < window)) ts0
    have hlt : (ts0.filter (fun t => decide (c - t < window))).length < limit := by
      simp only [List.length_cons] at hlen; omega
    have hcall : rlCall ts0 c limit window
        = (true, ts0.filter (fun t => decide (c - t < window)) ++ [c]) := by
      rw [rlCall_eq, if_neg (Nat.not_le.mpr hlt)]
    rw [runCalls_cons, hcall] at hb
    simp only [List.mem_cons] at hb
    rcases hb with hb | hb
    · exact hb
    · refine ih _ ?_ b hb
      simp only [List.length_append, List.length_cons, List.length_nil] at hlen ⊢
      omega

theorem runCalls_no_drop (limit : Nat) (window : Int) :
    ∀ (calls ts0 : List Int),
      (∀ c ∈ calls, ∀ x, x ∈ ts0 ∨ x ∈ calls → c - x < window) →
      ts0.length + calls.length ≤ limit →
      (runCalls ts0 calls limit window).2 = ts0 ++ calls := by
  intro calls
  induction calls with
  | nil => intro ts0 _ _; simp [runCalls_nil]
  | cons c cs ih =>
    intro ts0 hin hlen
    have hkeep : ts0.filter (fun t => decide (c - t < window)) = ts0 := by
      apply List.filter_eq_self.mpr
      intro a ha
      simpa using hin c (by simp) a (Or.inl ha)
    have hlt : ts0.length < limit := by
      simp only [List.length_cons] at hlen; omega
    have hcall : rlCall ts0 c limit window = (true, ts0 ++ [c]) := by
      rw [rlCall_eq, hkeep, if_neg (Nat.not_le.mpr hlt)]
    rw [runCalls_cons, hcall]
    have hrec : (runCalls (ts0 ++ [c]) cs limit window).2 = (ts0 ++ [c]) ++ cs := by
      refine ih (ts0 ++ [c]) ?_ ?_
      · intro c' hc' x hx
        refine hin c' (List.mem_cons_of_mem _ hc') x ?_
        rcases hx with hx | hx
        · rcases List.mem_append.mp hx with hx | hx
          · exact Or.inl hx
          · simp only [List.mem_singleton] at hx
            exact Or.inr (hx ▸ List.mem_cons_self c cs)
        · exact Or.inr (List.mem_cons_of_mem _ hx)
      · simp at hlen ⊢
        omega
    rw [hrec]
    exact (List.append_cons ts0 c cs).symm

theorem runCalls_snd_eq_of_length (limit : Nat) (window : Int) :
    ∀ (calls ts0 : List Int),
      ((runCalls ts0 calls limit window).2).length = ts0.length + calls.length →
      (runCalls ts0 calls limit window).2 = ts0 ++ calls := by
  intro calls
  induction calls with
  | nil => intro ts0 _; simp [runCalls_nil]
  | cons c cs ih =>
    intro ts0 hlen
    rw [runCalls_cons] at hlen ⊢
    dsimp only at hlen ⊢
    have hle2 := runCalls_snd_length_le limit window cs (rlCall ts0 c limit window).2
    have h1le := rlCall_snd_length_le ts0 c limit window
    have h1eq : (rlCall ts0 c limit window).2.length = ts0.length + 1 := by
      simp only [List.length_cons] at hlen
      omega
    have hfle := List.length_filter_le (fun t => decide (c - t < window)) ts0
    have hsnd : (rlCall ts0 c limit window).2 = ts0 ++ [c] := by
      rw [rlCall_eq] at h1eq ⊢
      by_cases h : limit ≤ (ts0.filter (fun t => decide (c - t < window))).length
      · rw [if_pos h] at h1eq ⊢
        exfalso
        dsimp only at h1eq
        omega
      · rw [if_neg h] at h1eq ⊢
        dsimp only at h1eq ⊢
        simp only [List.length_append, List.length_singleton] at h1eq
        have heq : ts0.filter (fun t => decide (c - t < window)) = ts0 :=
          (List.filter_sublist _).eq_of_length (by omega)
        rw [heq]
    rw [hsnd] at hlen ⊢
    have hrec := ih (ts0 ++ [c]) (by
      simp only [List.length_append, List.length_singleton] at hlen ⊢
      simp only [List.length_cons] at hlen
      omega)
    rw [hrec]
    exact (List.append_cons ts0 c cs).symm

/-! ### Claim theorems -/

/-- C1: a `check_rate_limit` call first restricts the stored timestamps for
its (identity, action) pair to those within the window (`now - t < window`,
so anything at or before `now - window` is dropped), leaves the other pairs
untouched, rejects without recording when the remaining count reaches the
limit and otherwise appends `now` and accepts.  Consequently `L` calls from
a fresh state are all allowed, one more within the window of all of them is
rejected, and a call at least `W` after the earliest of the `L` allowed
calls is accepted. -/
theorem C1_rate_limiter_sliding_log :
    (∀ (rl : RateTable) (ident action : String) (limit : Nat) (window now : Int),
      ((checkRateLimit rl ident action limit window now).1 = true
          ↔ ((rl ident action).filter (fun t => decide (now - t < window))).length < limit)
      ∧ (checkRateLimit rl ident action limit window now).2 ident action
          = (if ((rl ident action).filter (fun t => decide (now - t < window))).length < limit
             then (rl ident action).filter (fun t => decide (now - t < window)) ++ [now]
             else (rl ident action).filter (fun t => decide (now - t < window)))
      ∧ ∀ i a, ¬(i = ident ∧ a = action) →
          (checkRateLimit rl ident action limit window now).2 i a = rl i a)
    ∧ (∀ (limit : Nat) (window : Int) (calls : List Int) (t : Int),
        calls.length = limit →
        List.Sorted (· ≤ ·) (calls ++ [t]) →
        (∀ c ∈ calls, t - c < window) →
        (∀ b ∈ (runCalls [] calls limit window).1, b = true)
          ∧ (rlCall (runCalls [] calls limit window).2 t limit window).1 = false)
    ∧ (∀ (limit : Nat) (window : Int) (c1 : Int) (rest : List Int) (t : Int),
        (c1 :: rest).length = limit →
        (∀ c ∈ rest, c1 ≤ c) →
        window ≤ t - c1 →
        (rlCall (runCalls [] (c1 :: rest) limit window).2 t limit window).1 = true) := by
  refine ⟨?_, ?_, ?_⟩
  · intro rl ident action limit window now
    have hck : checkRateLimit rl ident action limit window now
        = ((rlCall (rl ident action) now limit window).1,
           fun i a => if i = ident ∧ a = action
             then (rlCall (rl ident action) now limit window).2 else rl i a) := rfl
    by_cases h : limit
        ≤ ((rl ident action).filter (fun t => decide (now - t < window))).length
    · have hr : rlCall (rl ident action) now limit window
          = (false, (rl ident action).filter (fun t => decide (now - t < window))) := by
        rw [rlCall_eq, if_pos h]
      refine ⟨?_, ?_, ?_⟩
      · rw [hck, hr]
        dsimp only
        constructor
        · intro hf; exact (Bool.false_ne_true hf).elim
        · intro hlt; omega
      · rw [hck, hr]
        dsimp only
        rw [if_pos ⟨rfl, rfl⟩, if_neg (by omega)]
      · intro i a hia
        rw [hck]
        dsimp only
        rw [if_neg hia]
    · have hr : rlCall (rl ident action) now limit window
          = (true, (rl ident action).filter (fun t => decide (now - t < window)) ++ [now]) := by
        rw [rlCall_eq, if_neg h]
      refine ⟨?_, ?_, ?_⟩
      · rw [hck, hr]
        dsimp only
        constructor
        · intro _; omega
        · intro _; rfl
      · rw [hck, hr]
        dsimp only
        rw [if_pos ⟨rfl, rfl⟩, if_pos (by omega)]
      · intro i a hia
        rw [hck]
        dsimp only
        rw [if_neg hia]
  · intro limit window calls t hlen hsorted hwin
    have hle : ∀ c ∈ calls, c ≤ t := by
      intro c hc
      have := (List.pairwise_append.mp hsorted).2.2 c hc t (List.mem_singleton_self t)
      exact this
    have hrun : (runCalls [] calls limit window).2 = calls := by
      have h := runCalls_no_drop limit window calls []
        (by
          intro c hc x hx
          rcases hx with hx | hx
          · simp at hx
          · have h1 : c ≤ t := hle c hc
            have h2 : t - x < window := hwin x hx
            omega)
        (by simp [hlen])
      simpa using h
    refine ⟨runCalls_all_true limit window calls [] (by simp [hlen]), ?_⟩
    rw [hrun, rlCall_eq]
    have hkeep : calls.filter (fun c => decide (t - c < window)) = calls :=
      List.filter_eq_self.mpr (fun c hc => by simpa using hwin c hc)
    rw [if_pos (by rw [hkeep, hlen])]
  · intro limit window c1 rest t hlen hmin hwait
    have hlenle := runCalls_snd_length_le limit window (c1 :: rest) []
    rw [rlCall_eq]
    rw [if_neg ?_]
    have hfle := List.length_filter_le (fun c => decide (t - c < window))
      (runCalls [] (c1 :: rest) limit window).2
    rcases Nat.lt_or_ge ((runCalls [] (c1 :: rest) limit window).2).length limit with hlt | hge
    · omega
    · have heq : ((runCalls [] (c1 :: rest) limit window).2).length
          = ([] : List Int).length + (c1 :: rest).length := by
        simp only [List.length_nil, Nat.zero_add]
        simp only [List.length_nil, Nat.zero_add] at hlenle
        omega
      have hfull := runCalls_snd_eq_of_length limit window (c1 :: rest) [] heq
      simp only [List.nil_append] at hfull
      rw [hfull]
      have hdrop : (c1 :: rest).filter (fun c => decide (t - c < window))
          = rest.filter (fun c => decide (t - c < window)) := by
        rw [List.filter_cons]
        rw [if_neg (by simp; omega)]
      rw [hdrop]
      have hrle := List.length_filter_le (fun c => decide (t - c < window)) rest
      simp only [List.length_cons] at hlen
      omega

/-- C1 witness: with limit 2 and window 10, the calls at times 0 and 1 are
both allowed, a third call at time 5 is rejected, and a call at time 10
(ten seconds after the earliest allowed call) is accepted. -/
theorem C1_rate_limiter_sliding_log_witness :
    ((∀ b ∈ (runCalls [] [0, 1] 2 10).1, b = true)
      ∧ (rlCall (runCalls [] [0, 1] 2 10).2 5 2 10).1 = false)
    ∧ (rlCall (runCalls [] ((0 : Int) :: [1]) 2 10).2 10 2 10).1 = true := by
  constructor
  · exact C1_rate_limiter_sliding_log.2.1 2 10 [0, 1] 5 (by decide) (by decide)
      (by decide)
  · exact C1_rate_limiter_sliding_log.2.2 2 10 0 [1] 10 (by decide) (by decide)
      (by decide)

/-- C3: registering a free username succeeds and records the fresh session
id; a registration attempt while the name maps to a different client's
valid session id fails with the identity-in-use conflict and leaves the
registry unchanged; after `unregister_session` the name is free and
registration succeeds again. -/
theorem C3_session_exclusivity :
    (∀ (acts : SessionTable) (clientSid : Option String) (u freshId : String),
      acts u = none → u ≠ "" →
      (login acts clientSid (some u) freshId).1 = .ok
        ∧ (login acts clientSid (some u) freshId).2.1 u = some freshId)
    ∧ (∀ (acts : SessionTable) (clientSid : Option String) (u freshId sid : String),
      acts u = some sid → clientSid ≠ some sid → u ≠ "" →
      (login acts clientSid (some u) freshId).1 = .conflict
        ∧ (login acts clientSid (some u) freshId).2.1 = acts)
    ∧ (∀ (acts : SessionTable) (u : String), unregisterSession acts u u = none)
    ∧ (∀ (acts : SessionTable) (clientSid : Option String) (u freshId : String),
      u ≠ "" →
      (login (unregisterSession acts u) clientSid (some u) freshId).1 = .ok) := by
  refine ⟨?_, ?_, ?_, ?_⟩
  · intro acts clientSid u freshId hfree hu
    simp [login, hu, isUsernameActive, hfree]
  · intro acts clientSid u freshId sid hheld hdiff hu
    have hne : some sid ≠ clientSid := fun h => hdiff h.symm
    simp [login, hu, isUsernameActive, hheld, hne]
  · intro acts u
    simp [unregisterSession]
  · intro acts clientSid u freshId hu
    have hfree : unregisterSession acts u u = none := by simp [unregisterSession]
    simp [login, hu, isUsernameActive, hfree]

/-- C3 witness: "bob" registers with fresh id "s1"; a second registration
by a clientless session conflicts and changes nothing; after unregister,
"bob" registers again. -/
theorem C3_session_exclusivity_witness :
    ((login (fun _ => none) none (some "bob") "s1").1 = .ok
      ∧ (login (fun _ => none) none (some "bob") "s1").2.1 "bob" = some "s1")
    ∧ (login (fun u => if u = "bob" then some "s1" else none) none
        (some "bob") "s2").1 = .conflict
    ∧ unregisterSession (fun u => if u = "bob" then some "s1" else none) "bob" "bob"
        = none
    ∧ (login (unregisterSession
        (fun u => if u = "bob" then some "s1" else none) "bob") none
        (some "bob") "s3").1 = .ok := by
  refine ⟨?_, ?_, ?_, ?_⟩
  · exact C3_session_exclusivity.1 (fun _ => none) none "bob" "s1" rfl
      (by decide)
  · exact (C3_session_exclusivity.2.1
      (fun u => if u = "bob" then some "s1" else none) none "bob" "s2" "s1"
      (by simp) (by simp) (by decide)).1
  · exact C3_session_exclusivity.2.2.1
      (fun u => if u = "bob" then some "s1" else none) "bob"
  · exact C3_session_exclusivity.2.2.2
      (fun u => if u = "bob" then some "s1" else none) none "bob" "s3"
      (by decide)

/-- C4: the message half of the claim holds — the sweep deletes a message
exactly when its timestamp is strictly below `now - 1h`, and concretely at
`now = 90000` the 61-minute-old message vanishes from the room listing
while the 59-minute-old one is all that remains.  The room half fails on
the code: the mixed text formats compare the room's whole UTC day against
the cutoff's (see `sweepRooms`), so the sweep deletes a room exactly when
its UTC day is at most the cutoff's — and concretely it deletes a room
only 30 minutes old (created at 88200, swept at 90000, although
`90000 - 3600 ≤ 88200`), contradicting the claim and the docstring of
`cleanup_old_messages` itself, "Deletes messages/rooms older than 1
hour". -/
theorem C4_retention_sweep :
    (∀ (msgs : List Msg) (now : Int) (m : Msg),
      m ∈ sweepMessages msgs now ↔ m ∈ msgs ∧ ¬(m.timestamp < now - 3600))
    ∧ listByRoom (sweepMessages [⟨1, "a", "old", none, 86340⟩,
          ⟨2, "a", "new", none, 86460⟩] 90000) none
        = [⟨2, "a", "new", none, 86460⟩]
    ∧ (∀ (rooms : List Room) (now : Int) (r : Room),
      r ∈ sweepRooms rooms now
        ↔ r ∈ rooms ∧ ¬(utcDay r.createdAt ≤ utcDay (now - 3600)))
    ∧ sweepRooms [⟨123456, "young", 88200⟩] 90000 = []
    ∧ (90000 : Int) - 3600 ≤ 88200 := by
  refine ⟨?_, ?_, ?_, ?_, ?_⟩
  · intro msgs now m
    simp [sweepMessages, List.mem_filter]
  · decide
  · intro rooms now r
    simp [sweepRooms, List.mem_filter]
  · decide
  · decide

/-- C5: `get_active_count` returns the number of entries of the room whose
last-seen time is within the last 10 seconds and evicts exactly the stale
entries of that room, leaving other rooms alone; a single touch of an
empty room gives count 1 immediately and count 0 from 10 seconds on. -/
theorem C5_presence_decay :
    (∀ (ls : PresenceTable) (rid : String) (now : Int),
      (getActiveCount ls rid now).1
          = ((ls rid).filter (fun p => decide (now - p.2 < 10))).length
        ∧ (getActiveCount ls rid now).2 rid
            = (ls rid).filter (fun p => decide (now - p.2 < 10))
        ∧ ∀ r, r ≠ rid → (getActiveCount ls rid now).2 r = ls r)
    ∧ (∀ (ls : PresenceTable) (rid u : String) (t0 : Int),
      ls rid = [] →
      (getActiveCount (updatePresence ls rid u t0) rid t0).1 = 1)
    ∧ (∀ (ls : PresenceTable) (rid u : String) (t0 t : Int),
      ls rid = [] → t0 + 10 ≤ t →
      (getActiveCount (updatePresence ls rid u t0) rid t).1 = 0) := by
  refine ⟨?_, ?_, ?_⟩
  · intro ls rid now
    refine ⟨rfl, ?_, ?_⟩
    · simp [getActiveCount]
    · intro r hr
      simp [getActiveCount, hr]
  · intro ls rid u t0 hempty
    simp [getActiveCount, updatePresence, setEntry, hempty]
  · intro ls rid u t0 t hempty hwait
    simp [getActiveCount, updatePresence, setEntry, hempty]
    omega

/-- C5 witness: touching room "r" with "alice" at time 0 from an empty
table gives active count 1 at time 0 and 0 at time 10. -/
theorem C5_presence_decay_witness :
    (getActiveCount (updatePresence (fun _ => []) "r" "alice" 0) "r" 0).1 = 1
    ∧ (getActiveCount (updatePresence (fun _ => []) "r" "alice" 0) "r" 10).1 = 0 := by
  constructor
  · exact C5_presence_decay.2.1 (fun _ => []) "r" "alice" 0 rfl
  · exact C5_presence_decay.2.2 (fun _ => []) "r" "alice" 0 10 rfl (by decide)

/-- C7: `create_room` only ever inserts a code that no row of the `rooms`
table (live rooms included) already carries, so distinctness of the stored
codes is preserved; the sweep only deletes rows and also preserves it.
Hence no two simultaneously-live rooms share a code and a live room's code
is never reassigned before that room expires. -/
theorem C7_room_code_unique :
    (∀ (rooms : List Room) (cands : List Nat) (name : String) (now : Int)
        (c : Nat) (rooms2 : List Room),
      createRoom rooms cands name now = some (c, rooms2) →
      c ∉ rooms.map Room.code ∧ rooms2 = rooms ++ [⟨c, name, now⟩]
        ∧ ((rooms.map Room.code).Nodup → (rooms2.map Room.code).Nodup))
    ∧ (∀ (rooms : List Room) (now : Int),
      (rooms.map Room.code).Nodup →
      ((sweepRooms rooms now).map Room.code).Nodup) := by
  constructor
  · intro rooms cands name now c rooms2
    induction cands with
    | nil => intro h; simp [createRoom] at h
    | cons c0 cs ih =>
      intro h
      simp only [createRoom] at h
      by_cases hex : rooms.any (fun r => decide (r.code = c0)) = true
      · rw [if_pos hex] at h
        exact ih h
      · rw [if_neg hex] at h
        simp only [Option.some.injEq, Prod.mk.injEq] at h
        obtain ⟨h1, h2⟩ := h
        subst h1
        subst h2
        simp only [List.any_eq_true, decide_eq_true_eq] at hex
        push_neg at hex
        have hnotmem : c0 ∉ rooms.map Room.code := by
          simp only [List.mem_map, not_exists]
          intro r
          intro hcontra
          exact hex r hcontra.1 hcontra.2
        refine ⟨hnotmem, rfl, ?_⟩
        intro hnd
        simp only [List.map_append, List.map_cons, List.map_nil]
        rw [List.nodup_append]
        refine ⟨hnd, List.nodup_singleton _, ?_⟩
        intro a ha hb
        simp only [List.mem_singleton] at hb
        exact hnotmem (hb ▸ ha)
  · intro rooms now hnd
    exact ((List.filter_sublist rooms).map Room.code).nodup hnd

/-- C7 witness: with the table holding code 111111, a creation drawing the
colliding candidate first inserts the fresh code 222222 and distinctness
is preserved, as it is across a sweep. -/
theorem C7_room_code_unique_witness :
    ((222222 : Nat) ∉ [(⟨111111, "r", 0⟩ : Room)].map Room.code
      ∧ ([(⟨111111, "r", 0⟩ : Room), ⟨222222, "s", 5⟩].map Room.code).Nodup)
    ∧ (((sweepRooms [⟨111111, "r", 0⟩, ⟨222222, "s", 5⟩] 10).map Room.code).Nodup) := by
  constructor
  · have h := C7_room_code_unique.1 [⟨111111, "r", 0⟩] [111111, 222222] "s" 5
      222222 [⟨111111, "r", 0⟩, ⟨222222, "s", 5⟩] (by decide)
    exact ⟨h.1, h.2.2 (by decide)⟩
  · exact C7_room_code_unique.2 [⟨111111, "r", 0⟩, ⟨222222, "s", 5⟩] 10
      (by decide)

/-- C8: the room listing is always in non-decreasing timestamp order, and
three messages of one room with strictly increasing timestamps come back
exactly in insertion order. -/
theorem C8_read_ordering :
    (∀ (msgs : List Msg) (room : Option Nat),
      List.Sorted tsLe (listByRoom msgs room))
    ∧ (∀ (A B C : Msg) (room : Option Nat),
      A.roomCode = room → B.roomCode = room → C.roomCode = room →
      A.timestamp < B.timestamp → B.timestamp < C.timestamp →
      listByRoom [A, B, C] room = [A, B, C]) := by
  constructor
  · intro msgs room
    exact List.sorted_insertionSort tsLe _
  · intro A B C room hA hB hC hAB hBC
    have hfilter : [A, B, C].filter (fun m => decide (m.roomCode = room))
        = [A, B, C] := by
      simp [hA, hB, hC]
    rw [listByRoom, hfilter]
    apply List.Sorted.insertionSort_eq
    simp only [List.sorted_cons, List.mem_cons, List.mem_singleton, tsLe]
    refine ⟨?_, ?_, ?_⟩
    · intro b hb
      rcases hb with rfl | rfl | h
      · omega
      · omega
      · simp at h
    · intro b hb
      rcases hb with rfl | h
      · omega
      · simp at h
    · simp [List.sorted_singleton, List.sorted_nil]

/-- C8 witness: three concrete messages of room 5 at times 10 < 20 < 30
come back as inserted. -/
theorem C8_read_ordering_witness :
    listByRoom [⟨1, "a", "A", some 5, 10⟩, ⟨2, "a", "B", some 5, 20⟩,
        ⟨3, "a", "C", some 5, 30⟩] (some 5)
      = [⟨1, "a", "A", some 5, 10⟩, ⟨2, "a", "B", some 5, 20⟩,
         ⟨3, "a", "C", some 5, 30⟩] :=
  C8_read_ordering.2 ⟨1, "a", "A", some 5, 10⟩ ⟨2, "a", "B", some 5, 20⟩
    ⟨3, "a", "C", some 5, 30⟩ (some 5) rfl rfl rfl (by decide) (by decide)

/-- C10: a stored `/api/chat` message carries at most 280 text characters
and at most 6 user characters (with user defaulting to "Anon" when the
field is absent), the list after a post is the new message followed by the
previous ones and never longer than 50, and a GET returns at most 50
messages. -/
theorem C10_redis_bounds :
    (∀ (store : List ChatMsg) (d : ChatPostData) (now : Int) (t : List Char),
      d.text = some t →
      (chatPost store d now).2
          = ((⟨t.take 280, (d.user.getD "Anon".toList).take 6, now⟩ : ChatMsg)
              :: store).take 50
        ∧ (chatPost store d now).2.length ≤ 50
        ∧ (∀ m ∈ (chatPost store d now).2,
            m ∈ store ∨ (m.text.length ≤ 280 ∧ m.user.length ≤ 6))
        ∧ (d.user = none →
            ∃ rest, (chatPost store d now).2
              = (⟨t.take 280, "Anon".toList, now⟩ : ChatMsg) :: rest))
    ∧ (∀ store : List ChatMsg,
      chatGet store = .messages (store.take 50) ∧ (store.take 50).length ≤ 50) := by
  constructor
  · intro store d now t ht
    have heq : (chatPost store d now).2
        = ((⟨t.take 280, (d.user.getD "Anon".toList).take 6, now⟩ : ChatMsg)
            :: store).take 50 := by
      simp [chatPost, ht]
    refine ⟨heq, ?_, ?_, ?_⟩
    · rw [heq]
      simp [List.length_take]
    · intro m hm
      rw [heq] at hm
      have hm2 := List.take_subset _ _ hm
      rcases List.mem_cons.mp hm2 with rfl | hmem
      · refine Or.inr ⟨?_, ?_⟩
        · simp [List.length_take]
        · simp [List.length_take]
      · exact Or.inl hmem
    · intro huser
      rw [heq, huser]
      rcases store with _ | ⟨s0, srest⟩
      · exact ⟨[], by simp⟩
      · exact ⟨(s0 :: srest).take 49, by simp [List.take_succ_cons]⟩
  · intro store
    exact ⟨rfl, by simp [List.length_take]⟩

/-- C2 counterexample: at time 105 the limiter rejects `examplePost`
(five recorded sends within the 10 s window), the response is 429 — yet the
request has already changed coordinator presence state: the global room's
presence table, empty beforehand, now records ("alice", 105), because
`update_presence` runs before the rate-limit check. -/
theorem C2_429_presence_counterexample :
    (apiMessages exampleState examplePost 105).1 = .rateLimited
    ∧ exampleState.lastSeen "global" = []
    ∧ (apiMessages exampleState examplePost 105).2.lastSeen "global"
        = [("alice", 105)] := by
  refine ⟨by decide, rfl, by decide⟩

/-- C2 amended: a rate-limited `/api/messages` request answers 429 and
inserts no message, deletes no message beyond the routine retention sweep,
and leaves the session registry and next message id unchanged — but it
does update the requester's presence entry for their room (recorded before
the limiter runs), and the limiter's own timestamp table. -/
theorem C2_429_no_store_side_effect :
    ∀ (st : ServerState) (req : Request) (now : Int),
      (apiMessages st req now).1 = .rateLimited →
      (apiMessages st req now).2.messages = sweepMessages st.messages now
      ∧ (apiMessages st req now).2.nextId = st.nextId
      ∧ (apiMessages st req now).2.rooms = sweepRooms st.rooms now
      ∧ (apiMessages st req now).2.activeSessions = st.activeSessions
      ∧ (apiMessages st req now).2.lastSeen
          = updatePresence st.lastSeen (roomIdOf req.roomCode)
              (usernameOf req) now := by
  intro st req now hresp
  by_cases hauth : authOk (sweepState st now) req = true
  · rw [apiMessages_authed st req now hauth] at hresp ⊢
    revert hresp
    cases hm : req.method
    · intro hresp
      rw [handleGet_fst] at hresp
      simp at hresp
    · intro hresp
      dsimp only at hresp ⊢
      rw [handlePost_rateLimited_eq _ req now hresp]
      refine ⟨rfl, rfl, rfl, rfl, rfl⟩
    · intro hresp
      dsimp only at hresp ⊢
      rw [handleDelete_rateLimited_eq _ req now hresp]
      refine ⟨rfl, rfl, rfl, rfl, rfl⟩
  · rw [Bool.not_eq_true] at hauth
    rw [apiMessages_unauthorized st req now hauth] at hresp
    simp at hresp

/-- C2 witness: the amended theorem applied to the concrete rate-limited
request of the counterexample scenario. -/
theorem C2_429_no_store_side_effect_witness :
    (apiMessages exampleState examplePost 105).2.messages
        = sweepMessages exampleState.messages 105
    ∧ (apiMessages exampleState examplePost 105).2.activeSessions
        = exampleState.activeSessions := by
  have h := C2_429_no_store_side_effect exampleState examplePost 105 (by decide)
  exact ⟨h.1, h.2.2.2.1⟩

/-- C6: on an admitted (authenticated and not rate-limited) DELETE with a
nonzero message id, a requester who is not the author gets 403 and the
message stays in the store; an id matching no stored message gets 404 with
the store unchanged; the author's delete succeeds and no message with that
id remains in the store or in any room listing.  "Existing" is evaluated
against the post-sweep store, since every request sweeps first. -/
theorem C6_delete_ownership :
    ∀ (st : ServerState) (req : Request) (now : Int) (mid : Nat),
      req.method = .delete →
      authOk (sweepState st now) req = true →
      (checkRateLimit (sweepState st now).rateLimits req.ip "delete_msg" 10 60 now).1 = true →
      req.messageId = some mid → mid ≠ 0 →
      ((∀ m, (sweepMessages st.messages now).find? (fun x => decide (x.id = mid)) = some m →
          m.username ≠ usernameOf req →
          (apiMessages st req now).1 = .forbidden
            ∧ (apiMessages st req now).2.messages = sweepMessages st.messages now
            ∧ m ∈ (apiMessages st req now).2.messages)
      ∧ ((sweepMessages st.messages now).find? (fun x => decide (x.id = mid)) = none →
          (apiMessages st req now).1 = .notFound
            ∧ (apiMessages st req now).2.messages = sweepMessages st.messages now)
      ∧ (∀ m, (sweepMessages st.messages now).find? (fun x => decide (x.id = mid)) = some m →
          m.username = usernameOf req →
          (apiMessages st req now).1 = .deleted
            ∧ (∀ x ∈ (apiMessages st req now).2.messages, x.id ≠ mid)
            ∧ ∀ room, ∀ x ∈ listByRoom (apiMessages st req now).2.messages room,
                x.id ≠ mid)) := by
  intro st req now mid hm hauth hrl hmid hz
  rw [apiMessages_authed st req now hauth, hm]
  dsimp only
  simp only [handleDelete, hrl, Bool.not_true, Bool.false_eq_true, if_false,
    hmid, sweepState_messages, sweepState_lastSeen]
  rw [if_neg hz]
  refine ⟨?_, ?_, ?_⟩
  · intro m hfind hne
    rw [hfind]
    dsimp only
    rw [if_pos hne]
    exact ⟨rfl, rfl, List.mem_of_find?_eq_some hfind⟩
  · intro hfind
    rw [hfind]
    exact ⟨rfl, rfl⟩
  · intro m hfind heq
    rw [hfind]
    dsimp only
    rw [if_neg (show ¬(m.username ≠ usernameOf req) from fun hne => hne heq)]
    refine ⟨rfl, ?_, ?_⟩
    · intro x hx
      have := (List.mem_filter.mp hx).2
      simpa using this
    · intro room x hx
      rw [listByRoom] at hx
      rw [List.mem_insertionSort] at hx
      have hx2 := (List.mem_filter.mp hx).1
      have := (List.mem_filter.mp hx2).2
      simpa using this

/-- C6 witness: in `exampleDeleteState`, "bob" deleting message 7 gets 403
with the message retained, deleting the absent id 8 gets 404, and "alice"
deleting her own message 7 succeeds with the id gone from the store. -/
theorem C6_delete_ownership_witness :
    ((apiMessages exampleDeleteState (exampleDelete "bob" "sid2" 7) 105).1
        = .forbidden
      ∧ (⟨7, "alice", "hi", none, 100⟩ : Msg)
          ∈ (apiMessages exampleDeleteState (exampleDelete "bob" "sid2" 7) 105).2.messages)
    ∧ (apiMessages exampleDeleteState (exampleDelete "alice" "sid1" 8) 105).1
        = .notFound
    ∧ ((apiMessages exampleDeleteState (exampleDelete "alice" "sid1" 7) 105).1
        = .deleted
      ∧ ∀ x ∈ (apiMessages exampleDeleteState (exampleDelete "alice" "sid1" 7) 105).2.messages,
          x.id ≠ 7) := by
  refine ⟨?_, ?_, ?_⟩
  · have h := (C6_delete_ownership exampleDeleteState
      (exampleDelete "bob" "sid2" 7) 105 7 rfl (by decide) (by decide) rfl
      (by decide)).1 ⟨7, "alice", "hi", none, 100⟩ (by decide) (by decide)
    exact ⟨h.1, h.2.2⟩
  · exact ((C6_delete_ownership exampleDeleteState
      (exampleDelete "alice" "sid1" 8) 105 8 rfl (by decide) (by decide) rfl
      (by decide)).2.1 (by decide)).1
  · have h := (C6_delete_ownership exampleDeleteState
      (exampleDelete "alice" "sid1" 7) 105 7 rfl (by decide) (by decide) rfl
      (by decide)).2.2 ⟨7, "alice", "hi", none, 100⟩ (by decide) (by decide)
    exact ⟨h.1, h.2.1⟩

/-- C9: an authenticated POST that passes the send rate limit but carries
an absent or empty `content` inserts nothing; the handler falls through to
the read path and answers 200 with the room's message list and active
count. -/
theorem C9_falsy_content_falls_to_read :
    ∀ (st : ServerState) (req : Request) (now : Int),
      req.method = .post →
      authOk (sweepState st now) req = true →
      (checkRateLimit (sweepState st now).rateLimits req.ip "send_msg" 5 10 now).1 = true →
      (req.content = none ∨ req.content = some "") →
      (apiMessages st req now).1
        = .messages
            (if roomTruthy req.roomCode then
              listByRoom (sweepMessages st.messages now) req.roomCode
             else listByRoom (sweepMessages st.messages now) none)
            (getActiveCount
              (updatePresence st.lastSeen (roomIdOf req.roomCode)
                (usernameOf req) now)
              (roomIdOf req.roomCode) now).1
        ∧ (apiMessages st req now).2.messages = sweepMessages st.messages now := by
  intro st req now hm hauth hrl hc
  rw [apiMessages_authed st req now hauth, hm]
  dsimp only
  simp only [handlePost, hrl, Bool.not_true, Bool.false_eq_true, if_false]
  rcases hc with hc | hc
  · rw [hc]
    dsimp only
    rw [handleGet_fst, handleGet_snd]
    exact ⟨rfl, rfl⟩
  · rw [hc]
    dsimp only
    rw [if_neg (show ¬("" ≠ "") from fun hne => hne rfl)]
    rw [handleGet_fst, handleGet_snd]
    exact ⟨rfl, rfl⟩

/-- C9 witness: "alice", authenticated and within the send limit, posts an
empty `content` to the empty-store state; the answer is the (empty) global
listing with active count 1 and no message is inserted. -/
theorem C9_falsy_content_falls_to_read_witness :
    ((apiMessages exampleDeleteState exampleEmptyPost 105).1
      = .messages
          (if roomTruthy exampleEmptyPost.roomCode then
            listByRoom (sweepMessages exampleDeleteState.messages 105)
              exampleEmptyPost.roomCode
           else listByRoom (sweepMessages exampleDeleteState.messages 105) none)
          (getActiveCount
            (updatePresence exampleDeleteState.lastSeen
              (roomIdOf exampleEmptyPost.roomCode)
              (usernameOf exampleEmptyPost) 105)
            (roomIdOf exampleEmptyPost.roomCode) 105).1)
    ∧ (apiMessages exampleDeleteState exampleEmptyPost 105).2.messages
        = sweepMessages exampleDeleteState.messages 105 :=
  C9_falsy_content_falls_to_read exampleDeleteState exampleEmptyPost 105 rfl
    (by decide) (by decide) (Or.inr rfl)

/-- C10 witness: posting 300 "x" characters with no user field to an empty
store yields one message of 280 "x"s from "Anon"; a GET of that store
returns it and stays within 50 messages. -/
theorem C10_redis_bounds_witness :
    (chatPost [] ⟨some (List.replicate 300 'x'), none⟩ 7).2
        = ((⟨(List.replicate 300 'x').take 280,
            ((none : Option (List Char)).getD "Anon".toList).take 6, 7⟩ : ChatMsg)
            :: []).take 50
    ∧ (chatPost [] ⟨some (List.replicate 300 'x'), none⟩ 7).2.length ≤ 50 := by
  have h := C10_redis_bounds.1 [] ⟨some (List.replicate 300 'x'), none⟩ 7
    (List.replicate 300 'x') rfl
  exact ⟨h.1, h.2.1⟩

end AnonHere
